import Mathlib

/-!
Verification development for `src/lib/repository.py` of the
`family-album/repository.family-album.es` repository.

The aggregator loads add-on entries (parsed JSON) into an insertion-ordered
store (`Repository._load_data`), resolves a branch per add-on
(`Repository._get_addon_branch` / `Repository.get_latest_release`), fetches and
merges per-add-on metadata documents (`Repository._get_addon_xml` /
`Repository.get_addons_xml`), and resolves asset URLs
(`Repository.get_asset_url`).  `validate_entry_schema` / `validate_json_schema`
check raw entries against `ENTRY_SCHEMA`.

The embedding has two layers, both translated from the source:

* a raw layer over `PyVal` (a model of the parsed-JSON values the load path
  actually receives: `_load_data` subscripts and `.get`s plain dicts and
  performs no schema validation first), used for the store/load/validation
  claims;
* a typed layer over `Addon` records (string fields, as produced by a
  well-formed entry and as described by the data model), used for the
  branch-resolution, fetch-merge and asset-URL claims.  Network and parse
  effects are an explicit environment `Env`; any Python exception is the
  `Except.error` case.  The `@cached` decorator (lib/cache, absent from src/)
  memoizes a deterministic computation and is the identity on values, so the
  cached operations are modeled as the underlying pure functions.
-/

/-- Model of the Python/JSON values flowing through the load path: strings,
integers, booleans, None, lists and (insertion-ordered) dicts. -/
inductive PyVal where
  | str (s : String)
  | int (n : Int)
  | bool (b : Bool)
  | none
  | list (xs : List PyVal)
  | dict (kvs : List (PyVal × PyVal))

mutual

/-- Structural equality on `PyVal`, modeling Python `==` on JSON data.
(The Python quirks `True == 1` and `1 == 1.0` are not modeled; no claim
depends on mixed-type equality.) -/
def pyBeq : PyVal → PyVal → Bool
  | PyVal.str a, PyVal.str b => a == b
  | PyVal.int a, PyVal.int b => a == b
  | PyVal.bool a, PyVal.bool b => a == b
  | PyVal.none, PyVal.none => true
  | PyVal.list xs, PyVal.list ys => pyBeqL xs ys
  | PyVal.dict xs, PyVal.dict ys => pyBeqP xs ys
  | _, _ => false

def pyBeqL : List PyVal → List PyVal → Bool
  | [], [] => true
  | a :: as, b :: bs => pyBeq a b && pyBeqL as bs
  | _, _ => false

def pyBeqP : List (PyVal × PyVal) → List (PyVal × PyVal) → Bool
  | [], [] => true
  | a :: as, b :: bs => (pyBeq a.1 b.1 && pyBeq a.2 b.2) && pyBeqP as bs
  | _, _ => false

end

mutual

theorem pyBeq_iff : ∀ a b : PyVal, pyBeq a b = true ↔ a = b
  | PyVal.str a, PyVal.str b => by simp [pyBeq]
  | PyVal.int a, PyVal.int b => by simp [pyBeq]
  | PyVal.bool a, PyVal.bool b => by simp [pyBeq]
  | PyVal.none, PyVal.none => by simp [pyBeq]
  | PyVal.list xs, PyVal.list ys => by simp [pyBeq, pyBeqL_iff xs ys]
  | PyVal.dict xs, PyVal.dict ys => by simp [pyBeq, pyBeqP_iff xs ys]
  | PyVal.str a, PyVal.int b => by simp [pyBeq]
  | PyVal.str a, PyVal.bool b => by simp [pyBeq]
  | PyVal.str a, PyVal.none => by simp [pyBeq]
  | PyVal.str a, PyVal.list ys => by simp [pyBeq]
  | PyVal.str a, PyVal.dict ys => by simp [pyBeq]
  | PyVal.int a, PyVal.str b => by simp [pyBeq]
  | PyVal.int a, PyVal.bool b => by simp [pyBeq]
  | PyVal.int a, PyVal.none => by simp [pyBeq]
  | PyVal.int a, PyVal.list ys => by simp [pyBeq]
  | PyVal.int a, PyVal.dict ys => by simp [pyBeq]
  | PyVal.bool a, PyVal.str b => by simp [pyBeq]
  | PyVal.bool a, PyVal.int b => by simp [pyBeq]
  | PyVal.bool a, PyVal.none => by simp [pyBeq]
  | PyVal.bool a, PyVal.list ys => by simp [pyBeq]
  | PyVal.bool a, PyVal.dict ys => by simp [pyBeq]
  | PyVal.none, PyVal.str b => by simp [pyBeq]
  | PyVal.none, PyVal.int b => by simp [pyBeq]
  | PyVal.none, PyVal.bool b => by simp [pyBeq]
  | PyVal.none, PyVal.list ys => by simp [pyBeq]
  | PyVal.none, PyVal.dict ys => by simp [pyBeq]
  | PyVal.list xs, PyVal.str b => by simp [pyBeq]
  | PyVal.list xs, PyVal.int b => by simp [pyBeq]
  | PyVal.list xs, PyVal.bool b => by simp [pyBeq]
  | PyVal.list xs, PyVal.none => by simp [pyBeq]
  | PyVal.list xs, PyVal.dict ys => by simp [pyBeq]
  | PyVal.dict xs, PyVal.str b => by simp [pyBeq]
  | PyVal.dict xs, PyVal.int b => by simp [pyBeq]
  | PyVal.dict xs, PyVal.bool b => by simp [pyBeq]
  | PyVal.dict xs, PyVal.none => by simp [pyBeq]
  | PyVal.dict xs, PyVal.list ys => by simp [pyBeq]

theorem pyBeqL_iff : ∀ xs ys : List PyVal, pyBeqL xs ys = true ↔ xs = ys
  | [], [] => by simp [pyBeqL]
  | a :: as, b :: bs => by
      simp [pyBeqL, pyBeq_iff a b, pyBeqL_iff as bs]
  | [], _ :: _ => by simp [pyBeqL]
  | _ :: _, [] => by simp [pyBeqL]

theorem pyBeqP_iff : ∀ xs ys : List (PyVal × PyVal), pyBeqP xs ys = true ↔ xs = ys
  | [], [] => by simp [pyBeqP]
  | a :: as, b :: bs => by
      simp [pyBeqP, pyBeq_iff a.1 b.1, pyBeq_iff a.2 b.2, pyBeqP_iff as bs,
        Prod.ext_iff, and_assoc]
  | [], _ :: _ => by simp [pyBeqP]
  | _ :: _, [] => by simp [pyBeqP]

end

instance : BEq PyVal := ⟨pyBeq⟩

instance : LawfulBEq PyVal where
  eq_of_beq h := (pyBeq_iff _ _).1 h
  rfl := (pyBeq_iff _ _).2 rfl

instance : DecidableEq PyVal := fun a b =>
  decidable_of_iff (pyBeq a b = true) (pyBeq_iff a b)

instance {ε α : Type} [DecidableEq ε] [DecidableEq α] : DecidableEq (Except ε α) := fun x y =>
  match x, y with
  | Except.ok a, Except.ok b =>
      decidable_of_iff (a = b) ⟨fun h => by rw [h], fun h => by cases h; rfl⟩
  | Except.error a, Except.error b =>
      decidable_of_iff (a = b) ⟨fun h => by rw [h], fun h => by cases h; rfl⟩
  | Except.ok _, Except.error _ => Decidable.isFalse (fun h => by cases h)
  | Except.error _, Except.ok _ => Decidable.isFalse (fun h => by cases h)

/-- Python truthiness (`bool(v)`): None, False, 0, empty string, empty list and
empty dict are falsy; everything else is truthy. -/
def pyTruthy : PyVal → Bool
  | PyVal.none => false
  | PyVal.bool b => b
  | PyVal.int n => n != 0
  | PyVal.str s => !s.isEmpty
  | PyVal.list xs => !xs.isEmpty
  | PyVal.dict kvs => !kvs.isEmpty

/-- Python subscripting `v[k]`: succeeds with the first matching value when `v`
is a dict containing key `k`; raises (KeyError, or TypeError on a non-dict)
otherwise. -/
def pyGetItem (v k : PyVal) : Except Unit PyVal :=
  match v with
  | PyVal.dict kvs =>
      match kvs.find? (fun p => pyBeq p.1 k) with
      | Option.some p => Except.ok p.2
      | Option.none => Except.error ()
  | _ => Except.error ()

/-- Python `v.get(k, d)`: the value at key `k` of dict `v`, or the default `d`
when the key is absent; raises (AttributeError) when `v` is not a dict. -/
def pyDictGet (v k d : PyVal) : Except Unit PyVal :=
  match v with
  | PyVal.dict kvs =>
      match kvs.find? (fun p => pyBeq p.1 k) with
      | Option.some p => Except.ok p.2
      | Option.none => Except.ok d
  | _ => Except.error ()

/-- Substring test on char lists, used to model Python `x in s` for strings. -/
def containsSub (needle : List Char) : List Char → Bool
  | [] => needle.isEmpty
  | c :: cs => needle.isPrefixOf (c :: cs) || containsSub needle cs

/-- Python membership `x in v`: element membership for lists, key membership
for dicts, substring for strings; raises TypeError on other containers. -/
def pyContains (v x : PyVal) : Except Unit Bool :=
  match v with
  | PyVal.list xs => Except.ok (xs.any (fun e => pyBeq e x))
  | PyVal.dict kvs => Except.ok (kvs.any (fun p => pyBeq p.1 x))
  | PyVal.str s =>
      match x with
      | PyVal.str t => Except.ok (containsSub t.data s.data)
      | _ => Except.error ()
  | _ => Except.error ()

/-- Whether the dict entries `kvs` contain the string key `k` (Python
`k in entry` for a string key). -/
def hasKey (kvs : List (PyVal × PyVal)) (k : String) : Bool :=
  kvs.any (fun p => pyBeq p.1 (PyVal.str k))

/-- Declared type of a schema field in `ENTRY_SCHEMA["properties"]`:
`string_types`, `dict`, or `list`. -/
inductive FieldType where
  | stringT
  | dictT
  | listT
  deriving DecidableEq

/-- Source: `ENTRY_SCHEMA["required"] = ["id", "username"]`. -/
def ENTRY_REQUIRED : List String := ["id", "username"]

/-- Source: `ENTRY_SCHEMA["properties"]`, a fixed table of field types.
Modelled from the spec: `string_types` is imported from `lib.utils`, which is
absent from src/; per the data model every such field is a plain string, so
`string_types` is modeled as the string type (`FieldType.stringT`). -/
def ENTRY_PROPS : List (String × FieldType) :=
  [("id", FieldType.stringT), ("username", FieldType.stringT),
   ("branch", FieldType.stringT), ("assets", FieldType.dictT),
   ("asset_prefix", FieldType.stringT), ("repository", FieldType.stringT),
   ("platforms", FieldType.listT)]

/-- The declared type of entry key `k` (`ENTRY_SCHEMA["properties"][key]`),
or none when `k` is not a schema key (a non-string key is never one). -/
def propTypeOf (k : PyVal) : Option FieldType :=
  match k with
  | PyVal.str s => (ENTRY_PROPS.find? (fun p => p.1 == s)).map (fun p => p.2)
  | _ => Option.none

/-- Python `isinstance(v, str)` on a `PyVal` (model of
`isinstance(value, string_types)`; a bool is not a string). -/
def isString : PyVal → Bool
  | PyVal.str _ => true
  | _ => false

/-- Python `isinstance(value, value_type)` for the three schema field types. -/
def typeMatches : FieldType → PyVal → Bool
  | FieldType.stringT, v => isString v
  | FieldType.dictT, PyVal.dict _ => true
  | FieldType.dictT, _ => false
  | FieldType.listT, PyVal.list _ => true
  | FieldType.listT, _ => false

/-- The loop `for key in ENTRY_SCHEMA["required"]: if key not in entry: raise`.
(Diagnostic message text is not modeled beyond a fixed string.) -/
def checkRequired (kvs : List (PyVal × PyVal)) : List String → Except String Unit
  | [] => Except.ok ()
  | k :: rest =>
      if hasKey kvs k then checkRequired kvs rest
      else Except.error ("required key missing: " ++ k)

/-- The per-field checks of one `(key, value)` item of the entry: the key must
be a schema key, the value must have the declared type, and a dict field must
map strings to strings while a list field must hold only strings. -/
def checkItem (k v : PyVal) : Except String Unit :=
  match propTypeOf k with
  | Option.none => Except.error "key is not valid"
  | Option.some ft =>
      if typeMatches ft v then
        match ft, v with
        | FieldType.dictT, PyVal.dict ps =>
            if ps.all (fun q => isString q.1 && isString q.2) then Except.ok ()
            else Except.error "expected dict of str to str"
        | FieldType.listT, PyVal.list vs =>
            if vs.all (fun e => isString e) then Except.ok ()
            else Except.error "expected list of str"
        | _, _ => Except.ok ()
      else Except.error "value has wrong type"

/-- The loop `for key, value in entry.items(): ...` of `validate_entry_schema`. -/
def checkItems : List (PyVal × PyVal) → Except String Unit
  | [] => Except.ok ()
  | (k, v) :: rest =>
      match checkItem k v with
      | Except.ok _ => checkItems rest
      | Except.error e => Except.error e

/-- Source: `validate_entry_schema(entry)` — rejects a non-dict entry, then
checks the required keys, then checks every item against the schema table.
An `Except.error` is a raised `InvalidSchemaError`. -/
def validate_entry_schema (entry : PyVal) : Except String Unit :=
  match entry with
  | PyVal.dict kvs =>
      match checkRequired kvs ENTRY_REQUIRED with
      | Except.ok _ => checkItems kvs
      | Except.error e => Except.error e
  | _ => Except.error "expecting dictionary for entry"

/-- The loop `for entry in data: validate_entry_schema(entry)`. -/
def validateEntries : List PyVal → Except String Unit
  | [] => Except.ok ()
  | e :: rest =>
      match validate_entry_schema e with
      | Except.ok _ => validateEntries rest
      | Except.error msg => Except.error msg

/-- Source: `validate_json_schema(data)` — the data must be a list (the tuple
case of the Python `isinstance(data, (list, tuple))` is represented by the
same list model), and every entry must validate. -/
def validate_json_schema (data : PyVal) : Except String Unit :=
  match data with
  | PyVal.list entries => validateEntries entries
  | _ => Except.error "expecting list/tuple for data"

/-- Modelled from the spec (for the refinement direction of the validator
claim): one entry item `(k, v)` is bad iff the key is outside the fixed
schema, or the value has a type other than the declared one, or a mapping
field has a non-string key or value, or a list field has a non-string
element. -/
def itemBadSpec (k v : PyVal) : Bool :=
  (propTypeOf k).isNone
  || (match propTypeOf k with
      | Option.some ft => !typeMatches ft v
      | Option.none => false)
  || (match propTypeOf k, v with
      | Option.some FieldType.dictT, PyVal.dict ps =>
          ps.any (fun q => !(isString q.1 && isString q.2))
      | _, _ => false)
  || (match propTypeOf k, v with
      | Option.some FieldType.listT, PyVal.list vs => vs.any (fun e => !isString e)
      | _, _ => false)

/-- Modelled from the spec: an entry is malformed iff it is not a mapping, or
a required key is missing, or some item is bad in the sense of
`itemBadSpec`. -/
def entryMalformedSpec (entry : PyVal) : Bool :=
  match entry with
  | PyVal.dict kvs =>
      (ENTRY_REQUIRED.any (fun k => !hasKey kvs k))
      || kvs.any (fun p => itemBadSpec p.1 p.2)
  | _ => true

/-- The `ADDON` namedtuple exactly as `_load_data` builds it: since the load
path performs no schema validation, every field holds whatever value the raw
entry supplied.  The `assetPfx` field models the source field `asset_prefix`. -/
structure RawAddon where
  id : PyVal
  username : PyVal
  branch : PyVal
  assets : PyVal
  assetPfx : PyVal
  repository : PyVal
  deriving DecidableEq

/-- The Entry Store `self._addons`: an `OrderedDict` modeled as its ordered
list of (key, record) pairs. -/
abbrev RawStore := List (PyVal × RawAddon)

/-- `OrderedDict` assignment `self._addons[addon_id] = record`: replace the
value in place when an equal key is present (the original key object and its
position are kept, as in Python), otherwise append at the end. -/
def storeSet (s : RawStore) (k : PyVal) (v : RawAddon) : RawStore :=
  if s.any (fun p => pyBeq p.1 k) then
    s.map (fun p => if pyBeq p.1 k then (p.1, v) else p)
  else s ++ [(k, v)]

/-- `self._addons.get(k)` on the raw store. -/
def storeLookup (s : RawStore) (k : PyVal) : Option RawAddon :=
  (s.find? (fun p => pyBeq p.1 k)).map (fun p => p.2)

/-- Number of records stored under key `k`. -/
def countKey (s : RawStore) (k : PyVal) : Nat :=
  s.countP (fun p => pyBeq p.1 k)

/-- The dict invariant: no two records share a key. -/
def UniqKeys (s : RawStore) : Prop := (s.map (fun p => p.1)).Nodup

/-- One iteration of the `for addon_data in data` loop of `_load_data`:
subscript `id`, read the optional `platforms` whitelist, skip (with a debug
log, not modeled) when the whitelist is truthy and does not contain the
platform name, otherwise build the `ADDON` record — defaulting `branch` to
None, `assets` to `{}`, `asset_prefix` to `""` and `repository` to the id —
and assign it into the store.  Any raised exception (KeyError, TypeError)
is `Except.error`. -/
def loadEntry (pn : String) (s : RawStore) (e : PyVal) : Except Unit RawStore := do
  let addonId ← pyGetItem e (PyVal.str "id")
  let platforms ← pyDictGet e (PyVal.str "platforms") PyVal.none
  let skip ←
    if pyTruthy platforms then do
      let m ← pyContains platforms (PyVal.str pn)
      pure (!m)
    else pure false
  if skip then
    pure s
  else do
    let username ← pyGetItem e (PyVal.str "username")
    let branch ← pyDictGet e (PyVal.str "branch") PyVal.none
    let assets ← pyDictGet e (PyVal.str "assets") (PyVal.dict [])
    let apfx ← pyDictGet e (PyVal.str "asset_prefix") (PyVal.str "")
    let repo ← pyDictGet e (PyVal.str "repository") addonId
    pure (storeSet s addonId (RawAddon.mk addonId username branch assets apfx repo))

/-- Source: `_load_data(data)` — the whole entry loop.  `self._addons` is
mutated entry by entry, so when an entry raises, the records loaded before it
remain in the store: the result is the store as mutated so far, paired with
`some ()` when an exception propagated out of the loop. -/
def loadData (pn : String) (s : RawStore) : List PyVal → RawStore × Option Unit
  | [] => (s, Option.none)
  | e :: rest =>
      match loadEntry pn s e with
      | Except.ok s2 => loadData pn s2 rest
      | Except.error u => (s, Option.some u)

/-- Source constant `GITHUB_CONTENT_BASE_URL`. -/
def GITHUB_CONTENT_BASE_URL : String :=
  "https://raw.githubusercontent.com/{username}/{repository}/{branch}/"

/-- Source constant `GITHUB_RELEASES_URL`. -/
def GITHUB_RELEASES_URL : String :=
  "https://api.github.com/repos/{username}/{repository}/releases"

/-- Source constant `GITHUB_LATEST_RELEASE_URL`. -/
def GITHUB_LATEST_RELEASE_URL : String := GITHUB_RELEASES_URL ++ "/latest"

/-- Source constant `GITHUB_ZIP_URL`. -/
def GITHUB_ZIP_URL : String :=
  "https://github.com/{username}/{repository}/archive/{branch}.zip"

/-- Source constant `Repository.ADDON_EXTENSION`. -/
def ADDON_EXTENSION : String := ".zip"

/-- Source constant `Repository.VERSION_SEPARATOR`. -/
def VERSION_SEPARATOR : String := "-"

/-- Lookup in a string-keyed mapping (a Python dict of strings). -/
def lookupStr (m : List (String × String)) (k : String) : Option String :=
  (m.find? (fun p => p.1 == k)).map (fun p => p.2)

/-- The opening-brace character of a format placeholder. -/
def lbrace : Char := Char.ofNat 123

/-- The closing-brace character of a format placeholder. -/
def rbrace : Char := Char.ofNat 125

/-- Scanner state of the format routine: copying literal text, having just
seen an opening or closing brace, or reading a placeholder key (characters
collected in reverse). -/
inductive FmtMode where
  | lit
  | sawL
  | sawR
  | key (acc : List Char)

/-- Core of Python `str.format(**kwargs)` restricted to string values: scan
the template one character at a time, copy literal characters, replace each
`lbrace key rbrace` placeholder by the keyword value (the substituted value
is not re-scanned, as in Python), honor doubled-brace escapes, and raise
(KeyError / ValueError) on an unknown key or an unmatched brace.  The output
is the list of emitted pieces in order. -/
def fmtGo (m : List (String × String)) : List Char → FmtMode → Except Unit (List String)
  | [], FmtMode.lit => Except.ok []
  | [], FmtMode.sawL => Except.error ()
  | [], FmtMode.sawR => Except.error ()
  | [], FmtMode.key _ => Except.error ()
  | c :: cs, FmtMode.lit =>
      if c = lbrace then fmtGo m cs FmtMode.sawL
      else if c = rbrace then fmtGo m cs FmtMode.sawR
      else (fmtGo m cs FmtMode.lit).map (fun l => c.toString :: l)
  | c :: cs, FmtMode.sawL =>
      if c = lbrace then (fmtGo m cs FmtMode.lit).map (fun l => lbrace.toString :: l)
      else if c = rbrace then
        match lookupStr m "" with
        | Option.some v => (fmtGo m cs FmtMode.lit).map (fun l => v :: l)
        | Option.none => Except.error ()
      else fmtGo m cs (FmtMode.key [c])
  | c :: cs, FmtMode.sawR =>
      if c = rbrace then (fmtGo m cs FmtMode.lit).map (fun l => rbrace.toString :: l)
      else Except.error ()
  | c :: cs, FmtMode.key acc =>
      if c = rbrace then
        match lookupStr m (String.mk acc.reverse) with
        | Option.some v => (fmtGo m cs FmtMode.lit).map (fun l => v :: l)
        | Option.none => Except.error ()
      else fmtGo m cs (FmtMode.key (c :: acc))

/-- Concatenate format pieces into the final string. -/
def joinPieces : List String → String
  | [] => ""
  | s :: rest => s ++ joinPieces rest

/-- Python `template.format(**m)` for string-valued keyword arguments. -/
def pyFormat (template : String) (m : List (String × String)) : Except Unit String :=
  match fmtGo m template.data FmtMode.lit with
  | Except.ok l => Except.ok (joinPieces l)
  | Except.error u => Except.error u

/-- The character list of a string up to (and excluding) its last slash
segment: for a base ending in a slash this is the base itself. -/
def dropSegment (s : String) : String :=
  String.mk ((s.data.reverse.dropWhile (fun c => c ≠ '/')).reverse)

/-- Keep the characters of a URL up to (excluding) its `n`-th slash. -/
def rootAux : List Char → Nat → List Char
  | [], _ => []
  | c :: cs, n =>
      if c = '/' then (if n ≤ 1 then [] else c :: rootAux cs (n - 1))
      else c :: rootAux cs n

/-- The scheme-and-authority part of an absolute URL (everything before the
third slash). -/
def rootOf (s : String) : String := String.mk (rootAux s.data 3)

/-- Model of `urljoin(base, rel)` from urllib, restricted to the shapes this
program uses: an empty `rel` keeps the base, a `rel` holding a scheme
separator is absolute and wins, a root-relative `rel` is joined to the scheme
and authority of the base, and any other `rel` replaces the last segment of
the base (the base constant ends in a slash, so it is appended to the whole
base).  Dot-segment normalization is not modeled. -/
def pyUrljoin (base rel : String) : String :=
  if rel.data.isEmpty then base
  else if containsSub ("://".data) rel.data then rel
  else if rel.data.head? = Option.some '/' then rootOf base ++ rel
  else dropSegment base ++ rel

/-- The `ADDON` record with the field types the data model gives a
well-formed, loaded add-on: `branch` is None or a string, `assets` maps
strings to strings.  The `assetPfx` field models the source field
`asset_prefix`. -/
structure Addon where
  id : String
  username : String
  branch : Option String
  assets : List (String × String)
  assetPfx : String
  repository : String
  deriving DecidableEq

/-- The platform collaborator (`self._platform`): `name()` is used for entry
filtering, `system` and `arch` for URL templating. -/
structure Platform where
  name : String
  system : String
  arch : String

/-- A fetched and parsed metadata document (an `ElementTree` fragment),
opaque to the aggregation logic. -/
abbrev Doc := String

/-- The remote world: `releaseResponse u r` is the parsed JSON object of
`GET .../repos/u/r/releases/latest` (error = network or parse failure), and
`fetchXml url` is `ElementTree.fromstring(get_request(url))` (error = any
network, timeout or parse failure). -/
structure Env where
  releaseResponse : String → String → Except Unit (List (String × String))
  fetchXml : String → Except Unit Doc

/-- Source: `get_latest_release(username, repository, default="master")` —
GET the latest-release endpoint, parse, return the `tag_name` field or the
default.  The `@cached(seconds=3600)` wrapper memoizes this deterministic
computation per argument tuple and does not change its value, so it is
modeled as the pure function; the default argument is passed explicitly. -/
def getLatestRelease (env : Env) (username repository dflt : String) : Except Unit String :=
  match env.releaseResponse username repository with
  | Except.ok data => Except.ok ((lookupStr data "tag_name").getD dflt)
  | Except.error u => Except.error u

/-- Source: `_get_addon_branch(addon)` =
`addon.branch or self.get_latest_release(addon.username, addon.repository)`.
Python `or` falls through when `addon.branch` is falsy: None or the empty
string. -/
def getAddonBranch (env : Env) (addon : Addon) : Except Unit String :=
  match addon.branch with
  | Option.some s =>
      if s.isEmpty then getLatestRelease env addon.username addon.repository "master"
      else Except.ok s
  | Option.none => getLatestRelease env addon.username addon.repository "master"

/-- The format arguments of the `addon.xml` URL of `_get_addon_xml`. -/
def xmlFormats (addon : Addon) (branch : String) : List (String × String) :=
  [("id", addon.id), ("username", addon.username),
   ("repository", addon.repository), ("branch", branch)]

/-- The URL construction of `_get_addon_xml`, which happens before its
try/except: `urljoin(GITHUB_CONTENT_BASE_URL, addon.assets.get("addon.xml",
"addon.xml")).format(id=..., username=..., repository=..., branch=
self._get_addon_branch(addon))`.  A failure here — branch resolution, or a
bad placeholder — is not caught by the guard below. -/
def getAddonXmlUrl (env : Env) (addon : Addon) : Except Unit String := do
  let branch ← getAddonBranch env addon
  pyFormat
    (pyUrljoin GITHUB_CONTENT_BASE_URL ((lookupStr addon.assets "addon.xml").getD "addon.xml"))
    (xmlFormats addon branch)

/-- Source: `_get_addon_xml(addon)` — build the URL, then fetch and parse the
document inside try/except: a failure there is logged with the add-on id
(the second component collects the log line) and yields None. -/
def getAddonXml (env : Env) (addon : Addon) : Except Unit (Option Doc × List String) := do
  let url ← getAddonXmlUrl env addon
  match env.fetchXml url with
  | Except.ok d => pure (Option.some d, [])
  | Except.error _ => pure (Option.none, ["failed getting " ++ addon.id])

/-- The document-fetch outcome of one add-on: the URL construction followed
by the guarded fetch, without the catch. -/
def fetchDoc (env : Env) (addon : Addon) : Except Unit Doc := do
  let url ← getAddonXmlUrl env addon
  env.fetchXml url

/-- The Entry Store as consumed by the typed layer: ordered (id, record)
pairs with the string keys of the data model. -/
abbrev TStore := List (String × Addon)

/-- `self._addons.get(addon_id)` on the typed store. -/
def tstoreLookup (s : TStore) (k : String) : Option Addon :=
  (s.find? (fun p => p.1 == k)).map (fun p => p.2)

/-- The result collection of `get_addons_xml`: one `_get_addon_xml` outcome
per add-on in store order.  Both execution paths — the sequential `map` for
`num_threads <= 1` and the thread pool with `map(lambda f: f.result(),
futures)` — yield results in dispatch order and re-raise the first uncaught
exception when the results are iterated, which this sequential collection
models. -/
def collectResults (env : Env) : List Addon → Except Unit (List (Option Doc × List String))
  | [] => Except.ok []
  | a :: rest => do
      let r ← getAddonXml env a
      let rs ← collectResults env rest
      pure (r :: rs)

/-- Source: `get_addons_xml()` — append every non-None result, in store
order, under the root element.  The manifest is modeled as the ordered list
of appended fragments (serialization of the root element is not modeled).
`num_threads = min(self._max_threads, len(self._addons))` only selects
sequential versus pooled execution and does not affect the value.  The
`@cached(seconds=3600)` wrapper is modeled as the pure function. -/
def getAddonsXml (env : Env) (store : TStore) : Except Unit (List Doc) :=
  match collectResults env (store.map (fun p => p.2)) with
  | Except.ok rs => Except.ok ((rs.map (fun r => r.1)).filterMap id)
  | Except.error u => Except.error u

/-- Python `s.startswith(p)`. -/
def pyStartsWith (s p : String) : Bool := p.data.isPrefixOf s.data

/-- Python `s.endswith(p)`. -/
def pyEndsWith (s p : String) : Bool := p.data.isSuffixOf s.data

/-- Python slice `s[a:-b]` for nonnegative `a`, positive `b`: drop the first
`a` characters and keep `len(s) - b - a` further characters (empty when the
bounds cross, by Nat truncation, as in Python). -/
def pySliceNegEnd (s : String) (a b : Nat) : String :=
  String.mk ((s.data.drop a).take (s.data.length - b - a))

/-- Source: `get_asset_url(addon_id, asset)` — None for an unknown id;
otherwise resolve the branch, build the format arguments, detect the
versioned-archive pattern `addon_id + VERSION_SEPARATOR ... ADDON_EXTENSION`
(extracting the version and switching the lookup key to "zip" with the
archive URL as default), otherwise default to the content base plus
`asset_prefix` plus the asset name; an entry of `addon.assets` overrides the
default via urljoin; finally format the chosen template. -/
def getAssetUrl (env : Env) (store : TStore) (platform : Platform)
    (addonId asset : String) : Except Unit (Option String) :=
  match tstoreLookup store addonId with
  | Option.none => Except.ok Option.none
  | Option.some addon => do
      let branch ← getAddonBranch env addon
      let formats0 := [("id", addon.id), ("username", addon.username),
        ("repository", addon.repository), ("branch", branch),
        ("system", platform.system), ("arch", platform.arch)]
      let isZip := pyStartsWith asset (addonId ++ VERSION_SEPARATOR)
        && pyEndsWith asset ADDON_EXTENSION
      let formats := if isZip then
          formats0 ++ [("version",
            pySliceNegEnd asset (addonId.length + VERSION_SEPARATOR.length)
              ADDON_EXTENSION.length)]
        else formats0
      let assetKey := if isZip then "zip" else asset
      let defaultAssetUrl := if isZip then GITHUB_ZIP_URL
        else GITHUB_CONTENT_BASE_URL ++ addon.assetPfx ++ asset
      let assetUrl :=
        match lookupStr addon.assets assetKey with
        | Option.some frag => pyUrljoin GITHUB_CONTENT_BASE_URL frag
        | Option.none => defaultAssetUrl
      match pyFormat assetUrl formats with
      | Except.ok u => pure (Option.some u)
      | Except.error e => Except.error e

/-- Whether an outcome is a success (Python: no exception raised). -/
def exOk {ε α : Type} : Except ε α → Bool
  | Except.ok _ => true
  | Except.error _ => false

theorem exBind_ok {ε α β : Type} (a : α) (f : α → Except ε β) :
    (Except.ok a : Except ε α) >>= f = f a := rfl

theorem exBind_error {ε α β : Type} (e : ε) (f : α → Except ε β) :
    (Except.error e : Except ε α) >>= f = Except.error e := rfl

theorem exPure_eq {ε α : Type} (a : α) : (pure a : Except ε α) = Except.ok a := rfl

theorem all_eq_not_any_not {α : Type} (l : List α) (p : α → Bool) :
    l.all p = !(l.any (fun x => !p x)) := by
  induction l with
  | nil => rfl
  | cons a l ih => simp [List.all_cons, List.any_cons, ih]

theorem exOk_ok {ε α : Type} (a : α) : exOk (Except.ok a : Except ε α) = true := rfl

theorem exOk_error {ε α : Type} (e : ε) : exOk (Except.error e : Except ε α) = false := rfl

theorem checkRequired_isOk (kvs : List (PyVal × PyVal)) :
    ∀ req : List String, exOk (checkRequired kvs req) = req.all (fun k => hasKey kvs k)
  | [] => rfl
  | k :: rest => by
      cases h : hasKey kvs k with
      | true => simp [checkRequired, h, checkRequired_isOk kvs rest]
      | false => simp [checkRequired, h, exOk_error]

theorem checkItems_isOk : ∀ kvs : List (PyVal × PyVal),
    exOk (checkItems kvs) = kvs.all (fun p => exOk (checkItem p.1 p.2))
  | [] => rfl
  | (k, v) :: rest => by
      cases h : checkItem k v with
      | ok u => simp [checkItems, h, checkItems_isOk rest, exOk_ok]
      | error msg => simp [checkItems, h, exOk_error]

theorem checkItem_isOk (k v : PyVal) : exOk (checkItem k v) = !itemBadSpec k v := by
  cases hpt : propTypeOf k with
  | none => simp [checkItem, itemBadSpec, hpt, exOk_error]
  | some ft =>
      cases ft with
      | stringT =>
          cases v <;> simp [checkItem, itemBadSpec, hpt, typeMatches, isString,
            exOk_ok, exOk_error]
      | dictT =>
          cases v with
          | dict ps =>
              have hall := all_eq_not_any_not ps (fun q => isString q.1 && isString q.2)
              simp only [checkItem, itemBadSpec, hpt, typeMatches, hall,
                Option.isNone, Bool.false_or, Bool.not_true, Bool.or_false,
                Bool.not_false]
              cases h : ps.any (fun q => !(isString q.1 && isString q.2)) <;>
                simp [h, exOk_ok, exOk_error]
          | str s => simp [checkItem, itemBadSpec, hpt, typeMatches, exOk_error]
          | int n => simp [checkItem, itemBadSpec, hpt, typeMatches, exOk_error]
          | bool b => simp [checkItem, itemBadSpec, hpt, typeMatches, exOk_error]
          | none => simp [checkItem, itemBadSpec, hpt, typeMatches, exOk_error]
          | list xs => simp [checkItem, itemBadSpec, hpt, typeMatches, exOk_error]
      | listT =>
          cases v with
          | list vs =>
              have hall := all_eq_not_any_not vs (fun e => isString e)
              simp only [checkItem, itemBadSpec, hpt, typeMatches, hall,
                Option.isNone, Bool.false_or, Bool.not_true, Bool.or_false,
                Bool.not_false]
              cases h : vs.any (fun e => !isString e) <;>
                simp [h, exOk_ok, exOk_error]
          | str s => simp [checkItem, itemBadSpec, hpt, typeMatches, exOk_error]
          | int n => simp [checkItem, itemBadSpec, hpt, typeMatches, exOk_error]
          | bool b => simp [checkItem, itemBadSpec, hpt, typeMatches, exOk_error]
          | none => simp [checkItem, itemBadSpec, hpt, typeMatches, exOk_error]
          | dict ps => simp [checkItem, itemBadSpec, hpt, typeMatches, exOk_error]

/-- C5: `validate_entry_schema` raises an `InvalidSchemaError` exactly on the
inputs the spec calls malformed: a non-mapping entry, a missing required key
(`id`, `username`), a key outside the fixed schema, a value of the wrong
declared type, a mapping field with a non-string key or value, or a list
field with a non-string element; every other entry validates silently. -/
theorem c5_validator_iff (e : PyVal) :
    (∃ msg, validate_entry_schema e = Except.error msg) ↔ entryMalformedSpec e = true := by
  have hiff : ∀ x : Except String Unit, (∃ msg, x = Except.error msg) ↔ exOk x = false := by
    intro x
    cases x <;> simp [exOk]
  rw [hiff]
  cases e with
  | dict kvs =>
      have hL : exOk (validate_entry_schema (PyVal.dict kvs))
          = (ENTRY_REQUIRED.all (fun k => hasKey kvs k)
             && kvs.all (fun p => exOk (checkItem p.1 p.2))) := by
        simp only [validate_entry_schema]
        cases hr : checkRequired kvs ENTRY_REQUIRED with
        | ok u =>
            have hx := checkRequired_isOk kvs ENTRY_REQUIRED
            rw [hr] at hx
            have hall : ENTRY_REQUIRED.all (fun k => hasKey kvs k) = true := by
              rw [← hx]
              rfl
            rw [hall]
            simp [checkItems_isOk]
        | error msg =>
            have hx := checkRequired_isOk kvs ENTRY_REQUIRED
            rw [hr] at hx
            have hall : ENTRY_REQUIRED.all (fun k => hasKey kvs k) = false := by
              rw [← hx]
              rfl
            rw [hall]
            simp [exOk_error]
      rw [hL]
      simp only [entryMalformedSpec, checkItem_isOk]
      rw [all_eq_not_any_not ENTRY_REQUIRED, all_eq_not_any_not kvs]
      simp only [Bool.not_not]
      cases h1 : ENTRY_REQUIRED.any (fun k => !hasKey kvs k) <;>
        cases h2 : kvs.any (fun p => itemBadSpec p.1 p.2) <;> simp [h1, h2]
  | str s => simp [validate_entry_schema, entryMalformedSpec, exOk]
  | int n => simp [validate_entry_schema, entryMalformedSpec, exOk]
  | bool b => simp [validate_entry_schema, entryMalformedSpec, exOk]
  | none => simp [validate_entry_schema, entryMalformedSpec, exOk]
  | list xs => simp [validate_entry_schema, entryMalformedSpec, exOk]

/-- C3: for every add-on and every environment, branch resolution returns a
set (truthy) `branch` directly — returning the same successful value under
every environment formalizes that no network call is observed — and
otherwise forwards to the latest-release lookup, which returns the
`tag_name` field of the parsed response when present and the fixed literal
`"master"` when it is absent. -/
theorem c3_branch_resolution (env : Env) (addon : Addon) :
    (∀ s, addon.branch = Option.some s → s ≠ "" →
        getAddonBranch env addon = Except.ok s)
    ∧ ((addon.branch = Option.none ∨ addon.branch = Option.some "") →
        getAddonBranch env addon
          = getLatestRelease env addon.username addon.repository "master")
    ∧ (∀ resp, env.releaseResponse addon.username addon.repository = Except.ok resp →
        getLatestRelease env addon.username addon.repository "master"
          = Except.ok ((lookupStr resp "tag_name").getD "master")) := by
  refine ⟨?_, ?_, ?_⟩
  · intro s hb hs
    have he : s.isEmpty = false := by
      cases h : s.isEmpty
      · rfl
      · exact absurd ((String.isEmpty_iff s).1 h) hs
    simp [getAddonBranch, hb, he]
  · intro h
    cases h with
    | inl h => simp [getAddonBranch, h]
    | inr h =>
        simp only [getAddonBranch, h]
        rfl
  · intro resp hresp
    simp [getLatestRelease, hresp]

def wEnvC3 : Env :=
  Env.mk (fun _ _ => Except.ok [("tag_name", "v9")]) (fun _ => Except.error ())

def wAddonC3set : Addon := Addon.mk "a" "u" (Option.some "main") [] "" "r"

def wAddonC3unset : Addon := Addon.mk "a" "u" Option.none [] "" "r"

/-- Witness for C3 at concrete inputs. -/
theorem c3_branch_resolution_witness :
    getAddonBranch wEnvC3 wAddonC3set = Except.ok "main"
    ∧ getAddonBranch wEnvC3 wAddonC3unset = getLatestRelease wEnvC3 "u" "r" "master"
    ∧ getLatestRelease wEnvC3 "u" "r" "master" = Except.ok "v9" := by
  refine ⟨(c3_branch_resolution wEnvC3 wAddonC3set).1 "main" rfl (by decide),
    (c3_branch_resolution wEnvC3 wAddonC3unset).2.1 (Or.inl rfl), ?_⟩
  have h := (c3_branch_resolution wEnvC3 wAddonC3unset).2.2 [("tag_name", "v9")] rfl
  exact h.trans rfl

/-- C10: an add-on whose `branch` field is the empty string (rather than
absent) is treated as unset by `_get_addon_branch` — the Python `or` falls
through on the falsy empty string — so the latest-release lookup is invoked
instead of returning the empty string directly. -/
theorem c10_empty_branch (env : Env) (addon : Addon)
    (h : addon.branch = Option.some "") :
    getAddonBranch env addon
      = getLatestRelease env addon.username addon.repository "master" := by
  simp only [getAddonBranch, h]
  rfl

def wEnvC10 : Env :=
  Env.mk (fun _ _ => Except.ok [("tag_name", "v2")]) (fun _ => Except.error ())

def wAddonC10 : Addon := Addon.mk "a10" "u10" (Option.some "") [] "" "r10"

/-- Witness for C10 at concrete inputs: the empty-string branch resolves to
the release lookup result, not to the empty string. -/
theorem c10_empty_branch_witness :
    getAddonBranch wEnvC10 wAddonC10 = getLatestRelease wEnvC10 "u10" "r10" "master"
    ∧ getAddonBranch wEnvC10 wAddonC10 = Except.ok "v2" := by
  have h := c10_empty_branch wEnvC10 wAddonC10 rfl
  exact ⟨h, h.trans rfl⟩

/-- C8: for every environment — hence with no observable network call, in
particular no branch resolution — `get_asset_url` on an id absent from the
Entry Store returns None without raising. -/
theorem c8_unknown_addon (env : Env) (store : TStore) (platform : Platform)
    (addonId asset : String)
    (h : tstoreLookup store addonId = Option.none) :
    getAssetUrl env store platform addonId asset = Except.ok Option.none := by
  simp [getAssetUrl, h]

def wEnvC8 : Env := Env.mk (fun _ _ => Except.error ()) (fun _ => Except.error ())

def wPlatC8 : Platform := Platform.mk "linux" "linux" "x86_64"

/-- Witness for C8 at concrete inputs (an empty store knows no id). -/
theorem c8_unknown_addon_witness :
    getAssetUrl wEnvC8 [] wPlatC8 "unknown" "unknown-1.0.zip" = Except.ok Option.none :=
  c8_unknown_addon wEnvC8 [] wPlatC8 "unknown" "unknown-1.0.zip" rfl

theorem startsZip (i v : String) :
    pyStartsWith (i ++ VERSION_SEPARATOR ++ v ++ ADDON_EXTENSION)
      (i ++ VERSION_SEPARATOR) = true := by
  simp only [pyStartsWith, List.isPrefixOf_iff_prefix, String.data_append]
  rw [List.append_assoc]
  exact List.prefix_append _ _

theorem endsZip (i v : String) :
    pyEndsWith (i ++ VERSION_SEPARATOR ++ v ++ ADDON_EXTENSION) ADDON_EXTENSION = true := by
  simp only [pyEndsWith, List.isSuffixOf_iff_suffix, String.data_append]
  exact List.suffix_append _ _

theorem sliceZip (i v : String) :
    pySliceNegEnd (i ++ VERSION_SEPARATOR ++ v ++ ADDON_EXTENSION)
      (i.length + VERSION_SEPARATOR.length) ADDON_EXTENSION.length = v := by
  unfold pySliceNegEnd
  have hdata : (i ++ VERSION_SEPARATOR ++ v ++ ADDON_EXTENSION).data
      = (i.data ++ VERSION_SEPARATOR.data) ++ (v.data ++ ADDON_EXTENSION.data) := by
    simp [String.data_append, List.append_assoc]
  rw [hdata]
  have hlen : i.length + VERSION_SEPARATOR.length
      = (i.data ++ VERSION_SEPARATOR.data).length := by
    show i.data.length + VERSION_SEPARATOR.data.length = _
    rw [List.length_append]
  rw [hlen, List.drop_left]
  have htake : ((i.data ++ VERSION_SEPARATOR.data) ++ (v.data ++ ADDON_EXTENSION.data)).length
      - ADDON_EXTENSION.length - (i.data ++ VERSION_SEPARATOR.data).length
      = v.data.length := by
    show ((i.data ++ VERSION_SEPARATOR.data) ++ (v.data ++ ADDON_EXTENSION.data)).length
      - ADDON_EXTENSION.data.length - (i.data ++ VERSION_SEPARATOR.data).length = v.data.length
    simp only [List.length_append]
    omega
  rw [htake, List.take_left]

theorem pyFormat_zip (i u r b sys ar ver : String) :
    pyFormat GITHUB_ZIP_URL
      [("id", i), ("username", u), ("repository", r), ("branch", b),
       ("system", sys), ("arch", ar), ("version", ver)]
    = Except.ok ("https://github.com/" ++ (u ++ ("/" ++ (r ++ ("/archive/"
        ++ (b ++ ".zip")))))) := rfl

/-- C4: for a known add-on id and an asset name of the form
`addon_id + VERSION_SEPARATOR + version + ADDON_EXTENSION` with no `"zip"`
override in the assets mapping, `get_asset_url` extracts exactly the
substring between the separator and the extension as the version, takes the
archive URL template as the default for the switched lookup key `"zip"`, and
returns that template with username (owner), repository and the resolved
branch substituted (the template has no version placeholder, so the version
substitution leaves no trace in the URL). -/
theorem c4_versioned_archive (env : Env) (store : TStore) (platform : Platform)
    (addonId v : String) (addon : Addon) (b : String)
    (hstore : tstoreLookup store addonId = Option.some addon)
    (hover : lookupStr addon.assets "zip" = Option.none)
    (hbranch : getAddonBranch env addon = Except.ok b) :
    pySliceNegEnd (addonId ++ VERSION_SEPARATOR ++ v ++ ADDON_EXTENSION)
        (addonId.length + VERSION_SEPARATOR.length) ADDON_EXTENSION.length = v
    ∧ getAssetUrl env store platform addonId
        (addonId ++ VERSION_SEPARATOR ++ v ++ ADDON_EXTENSION)
      = Except.ok (Option.some ("https://github.com/" ++ (addon.username ++ ("/"
          ++ (addon.repository ++ ("/archive/" ++ (b ++ ".zip"))))))) := by
  refine ⟨sliceZip addonId v, ?_⟩
  simp only [getAssetUrl, hstore, hbranch, exBind_ok, startsZip, endsZip,
    Bool.and_self, if_true, sliceZip, hover, List.cons_append, List.nil_append]
  rw [pyFormat_zip]
  rfl

def wEnvC4 : Env := Env.mk (fun _ _ => Except.error ()) (fun _ => Except.error ())

def wAddonC4 : Addon := Addon.mk "foo" "u1" (Option.some "main") [] "" "r1"

def wStoreC4 : TStore := [("foo", wAddonC4)]

def wPlatC4 : Platform := Platform.mk "linux" "linux" "x86_64"

/-- Witness for C4 at the concrete inputs of the spec example: id `"foo"`,
asset `"foo-1.2.3.zip"`, no override. -/
theorem c4_versioned_archive_witness :
    getAssetUrl wEnvC4 wStoreC4 wPlatC4 "foo" "foo-1.2.3.zip"
      = Except.ok (Option.some "https://github.com/u1/r1/archive/main.zip") :=
  (c4_versioned_archive wEnvC4 wStoreC4 wPlatC4 "foo" "1.2.3" wAddonC4 "main"
    rfl rfl rfl).2

/-- The per-add-on result of `_get_addon_xml` once the URL is built: the
fetched document, or None plus the error log line carrying the add-on id. -/
def fetchRes (env : Env) (addon : Addon) : Option Doc × List String :=
  match fetchDoc env addon with
  | Except.ok d => (Option.some d, [])
  | Except.error _ => (Option.none, ["failed getting " ++ addon.id])

theorem getAddonXml_eq (env : Env) (a : Addon)
    (h : exOk (getAddonXmlUrl env a) = true) :
    getAddonXml env a = Except.ok (fetchRes env a) := by
  cases hu : getAddonXmlUrl env a with
  | error e =>
      rw [hu, exOk_error] at h
      simp at h
  | ok url =>
      simp only [getAddonXml, fetchRes, fetchDoc, hu, exBind_ok]
      cases hf : env.fetchXml url <;> simp [hf, exPure_eq]

theorem collectResults_ok (env : Env) : ∀ addons : List Addon,
    (∀ a ∈ addons, exOk (getAddonXmlUrl env a) = true) →
    collectResults env addons = Except.ok (addons.map (fun a => fetchRes env a))
  | [] => fun _ => rfl
  | a :: rest => fun h => by
      have ha := h a (List.mem_cons_self a rest)
      have hr := collectResults_ok env rest (fun x hx => h x (List.mem_cons_of_mem a hx))
      simp [collectResults, getAddonXml_eq env a ha, hr, exBind_ok, exPure_eq]

theorem length_filterMap_fetchDoc (env : Env) : ∀ addons : List Addon,
    (addons.filterMap (fun a => (fetchRes env a).1)).length
      = addons.length - addons.countP (fun a => !exOk (fetchDoc env a))
  | [] => rfl
  | a :: rest => by
      have ih := length_filterMap_fetchDoc env rest
      have hle := List.countP_le_length (fun x => !exOk (fetchDoc env x)) (l := rest)
      cases hf : fetchDoc env a with
      | ok d =>
          have hhead : (fetchRes env a).1 = Option.some d := by
            simp [fetchRes, hf]
          have hp : (!exOk (fetchDoc env a)) = false := by
            simp [hf, exOk_ok]
          simp only [List.filterMap_cons, hhead, List.countP_cons, hp,
            List.length_cons]
          simp only [Bool.false_eq_true, if_false]
          omega
      | error e =>
          have hhead : (fetchRes env a).1 = Option.none := by
            simp [fetchRes, hf]
          have hp : (!exOk (fetchDoc env a)) = true := by
            simp [hf, exOk_error]
          simp only [List.filterMap_cons, hhead, List.countP_cons, hp,
            List.length_cons, if_true]
          omega

def xEnvC1 : Env := Env.mk (fun _ _ => Except.error ()) (fun _ => Except.ok "doc")

def xAddonC1a : Addon := Addon.mk "a" "ua" Option.none [] "" "a"

def xAddonC1b : Addon := Addon.mk "b" "ub" (Option.some "main") [] "" "b"

def xStoreC1 : TStore := [("a", xAddonC1a), ("b", xAddonC1b)]

/-- C1 counterexample: with two loaded add-ons of which exactly one fails —
add-on `a` has no configured branch and its latest-release lookup raises a
network error, while add-on `b` resolves and fetches fine (second conjunct) —
the claim predicts a manifest of 2 − 1 = 1 fragments with the failure logged
and the failing add-on omitted, but `get_addons_xml` raises instead: the
branch resolution inside `_get_addon_xml` runs before its try/except, so the
single failure aborts the whole aggregation. -/
theorem c1_counterexample :
    getAddonsXml xEnvC1 xStoreC1 = Except.error ()
    ∧ getAddonXml xEnvC1 xAddonC1b = Except.ok (Option.some "doc", []) :=
  ⟨rfl, rfl⟩

/-- C1 amended: provided branch resolution and URL construction succeed for
every stored add-on (they run before the per-add-on try/except, so their
failure propagates and aborts the aggregate — see the counterexample), the
aggregation never aborts: every add-on whose document fetch or parse fails
is logged with its id and omitted, and the manifest holds exactly the
successfully fetched fragments — N − K of them — in Entry Store order. -/
theorem c1_failure_isolation (env : Env) (store : TStore)
    (h : ∀ p ∈ store, exOk (getAddonXmlUrl env p.2) = true) :
    getAddonsXml env store
      = Except.ok ((store.map (fun p => p.2)).filterMap (fun a => (fetchRes env a).1))
    ∧ ((store.map (fun p => p.2)).filterMap (fun a => (fetchRes env a).1)).length
      = store.length - (store.map (fun p => p.2)).countP (fun a => !exOk (fetchDoc env a))
    ∧ ∀ p ∈ store, exOk (fetchDoc env p.2) = false →
        getAddonXml env p.2 = Except.ok (Option.none, ["failed getting " ++ p.2.id]) := by
  have hvals : ∀ a ∈ store.map (fun p => p.2), exOk (getAddonXmlUrl env a) = true := by
    intro a ha
    rcases List.mem_map.1 ha with ⟨p, hp, rfl⟩
    exact h p hp
  refine ⟨?_, ?_, ?_⟩
  · simp only [getAddonsXml, collectResults_ok env _ hvals]
    rw [List.map_map, List.filterMap_map]
    rfl
  · rw [length_filterMap_fetchDoc]
    simp [List.length_map]
  · intro p hp hfail
    rw [getAddonXml_eq env p.2 (h p hp)]
    cases hf : fetchDoc env p.2 with
    | ok d =>
        rw [hf, exOk_ok] at hfail
        simp at hfail
    | error e => simp [fetchRes, hf]

def wEnvC1 : Env := Env.mk (fun _ _ => Except.error ())
  (fun u => if u = "https://raw.githubusercontent.com/ub/b/main/addon.xml"
    then Except.ok "docB" else Except.error ())

def wAddonC1a : Addon := Addon.mk "a" "ua" (Option.some "x") [] "" "a"

def wAddonC1b : Addon := Addon.mk "b" "ub" (Option.some "main") [] "" "b"

def wStoreC1 : TStore := [("a", wAddonC1a), ("b", wAddonC1b)]

/-- Witness for the amended C1 at concrete inputs: N = 2 add-ons with set
branches, K = 1 failing document fetch; the manifest has exactly the one
successful fragment and the failure is logged with the add-on id. -/
theorem c1_failure_isolation_witness :
    getAddonsXml wEnvC1 wStoreC1 = Except.ok ["docB"]
    ∧ getAddonXml wEnvC1 wAddonC1a = Except.ok (Option.none, ["failed getting a"]) := by
  have h := c1_failure_isolation wEnvC1 wStoreC1 (by decide)
  exact ⟨h.1.trans rfl, h.2.2 ("a", wAddonC1a) (by decide) (by rfl)⟩

theorem pyBeq_beq (a b : PyVal) : (a == b) = pyBeq a b := rfl

theorem pyBeq_self (a : PyVal) : pyBeq a a = true := (pyBeq_iff a a).2 rfl

theorem pyDictGet_not_found (kvs : List (PyVal × PyVal)) (k : String) (d : PyVal)
    (h : hasKey kvs k = false) :
    pyDictGet (PyVal.dict kvs) (PyVal.str k) d = Except.ok d := by
  have hfind : kvs.find? (fun p => pyBeq p.1 (PyVal.str k)) = Option.none := by
    rw [List.find?_eq_none]
    intro p hp
    exact (List.any_eq_false).1 h p hp
  simp [pyDictGet, hfind]

theorem storeSet_keys_of_mem (s : RawStore) (k : PyVal) (v : RawAddon)
    (h : s.any (fun p => pyBeq p.1 k) = true) :
    (storeSet s k v).map (fun p => p.1) = s.map (fun p => p.1) := by
  simp only [storeSet, h, if_true]
  rw [List.map_map]
  apply List.map_congr_left
  intro p hp
  cases hb : pyBeq p.1 k <;> simp [Function.comp, hb]

theorem storeSet_uniq (s : RawStore) (k : PyVal) (v : RawAddon)
    (h : UniqKeys s) : UniqKeys (storeSet s k v) := by
  unfold UniqKeys at h ⊢
  cases hm : s.any (fun p => pyBeq p.1 k) with
  | true => rw [storeSet_keys_of_mem s k v hm]; exact h
  | false =>
      simp only [storeSet, hm, Bool.false_eq_true, if_false]
      rw [List.map_append, List.nodup_append]
      refine ⟨h, by simp, ?_⟩
      intro x hx hx2
      simp only [List.map_cons, List.map_nil, List.mem_singleton] at hx2
      subst hx2
      rcases List.mem_map.1 hx with ⟨p, hp, hpk⟩
      have hfalse := (List.any_eq_false).1 hm p hp
      apply hfalse
      rw [hpk]
      exact pyBeq_self _

theorem find?_map_update (k : PyVal) (v : RawAddon) : ∀ s : RawStore,
    s.any (fun p => pyBeq p.1 k) = true →
    ((s.map (fun p => if pyBeq p.1 k then (p.1, v) else p)).find?
        (fun p => pyBeq p.1 k)).map (fun p => p.2) = Option.some v
  | [] => by simp
  | q :: rest => by
      intro h
      cases hq : pyBeq q.1 k with
      | true => simp [List.find?_cons, hq]
      | false =>
          have hrest : rest.any (fun p => pyBeq p.1 k) = true := by
            have := h
            simp only [List.any_cons, hq, Bool.false_or] at this
            exact this
          simp only [List.map_cons, hq, Bool.false_eq_true, if_false,
            List.find?_cons, hq]
          exact find?_map_update k v rest hrest

theorem storeLookup_storeSet (s : RawStore) (k : PyVal) (v : RawAddon) :
    storeLookup (storeSet s k v) k = Option.some v := by
  unfold storeLookup storeSet
  cases hm : s.any (fun p => pyBeq p.1 k) with
  | false =>
      simp only [Bool.false_eq_true, if_false]
      rw [List.find?_append]
      have hnone : s.find? (fun p => pyBeq p.1 k) = Option.none := by
        rw [List.find?_eq_none]
        intro p hp
        exact (List.any_eq_false).1 hm p hp
      rw [hnone]
      simp [List.find?_cons, pyBeq_self k]
  | true =>
      simp only [if_true]
      exact find?_map_update k v s hm

theorem countP_beq_eq_one (k : PyVal) : ∀ l : List PyVal,
    l.Nodup → k ∈ l → l.countP (fun x => pyBeq x k) = 1
  | [], _, hmem => by cases hmem
  | a :: rest, hnodup, hmem => by
      rcases List.nodup_cons.1 hnodup with ⟨hna, hnr⟩
      by_cases hak : a = k
      · subst hak
        have h0 : rest.countP (fun x => pyBeq x a) = 0 := by
          rw [List.countP_eq_zero]
          intro x hx hbx
          exact hna (((pyBeq_iff x a).1 hbx) ▸ hx)
        simp [List.countP_cons, pyBeq_self a, h0]
      · have hmem2 : k ∈ rest := by
          cases List.mem_cons.1 hmem with
          | inl h => exact absurd h.symm hak
          | inr h => exact h
        have hba : pyBeq a k = false := by
          cases hb : pyBeq a k
          · rfl
          · exact absurd ((pyBeq_iff a k).1 hb) hak
        simp [List.countP_cons, hba, countP_beq_eq_one k rest hnr hmem2]

theorem countKey_storeSet (s : RawStore) (k : PyVal) (v : RawAddon)
    (hu : UniqKeys s) : countKey (storeSet s k v) k = 1 := by
  unfold countKey storeSet
  cases hm : s.any (fun p => pyBeq p.1 k) with
  | false =>
      simp only [Bool.false_eq_true, if_false]
      rw [List.countP_append]
      have h0 : s.countP (fun p => pyBeq p.1 k) = 0 := by
        rw [List.countP_eq_zero]
        intro p hp
        exact (List.any_eq_false).1 hm p hp
      have h1 : [(k, v)].countP (fun p => pyBeq p.1 k) = 1 := by
        simp [List.countP_cons, pyBeq_self k]
      rw [h0, h1]
  | true =>
      simp only [if_true]
      rw [List.countP_map]
      have hsame : ((fun p : PyVal × RawAddon => pyBeq p.1 k)
          ∘ (fun p => if pyBeq p.1 k then (p.1, v) else p))
          = (fun p => pyBeq p.1 k) := by
        funext p
        cases hb : pyBeq p.1 k <;> simp [Function.comp, hb]
      rw [hsame]
      have hcnt : List.countP (fun p : PyVal × RawAddon => pyBeq p.1 k) s
          = List.countP (fun x => pyBeq x k) (List.map (fun p => p.1) s) := by
        rw [List.countP_map]
        rfl
      rw [hcnt]
      rcases (List.any_eq_true).1 hm with ⟨p, hp, hpk⟩
      have hk : k ∈ List.map (fun p : PyVal × RawAddon => p.1) s :=
        List.mem_map.2 ⟨p, hp, (pyBeq_iff p.1 k).1 hpk⟩
      exact countP_beq_eq_one k (List.map (fun p : PyVal × RawAddon => p.1) s) hu hk

theorem loadTail_shape (pn : String) (s : RawStore) (e : PyVal) (idv : PyVal)
    (s2 : RawStore)
    (h : (do
      let username ← pyGetItem e (PyVal.str "username")
      let branch ← pyDictGet e (PyVal.str "branch") PyVal.none
      let assets ← pyDictGet e (PyVal.str "assets") (PyVal.dict [])
      let apfx ← pyDictGet e (PyVal.str "asset_prefix") (PyVal.str "")
      let repo ← pyDictGet e (PyVal.str "repository") idv
      pure (storeSet s idv (RawAddon.mk idv username branch assets apfx repo))
        : Except Unit RawStore) = Except.ok s2) :
    s2 = s ∨ ∃ k r, s2 = storeSet s k r := by
  cases hu : pyGetItem e (PyVal.str "username") with
  | error u => rw [hu, exBind_error] at h; exact Except.noConfusion h
  | ok uv =>
  simp only [hu, exBind_ok] at h
  cases hb : pyDictGet e (PyVal.str "branch") PyVal.none with
  | error u => rw [hb, exBind_error] at h; exact Except.noConfusion h
  | ok bv =>
  simp only [hb, exBind_ok] at h
  cases ha : pyDictGet e (PyVal.str "assets") (PyVal.dict []) with
  | error u => rw [ha, exBind_error] at h; exact Except.noConfusion h
  | ok av =>
  simp only [ha, exBind_ok] at h
  cases hap : pyDictGet e (PyVal.str "asset_prefix") (PyVal.str "") with
  | error u => rw [hap, exBind_error] at h; exact Except.noConfusion h
  | ok apv =>
  simp only [hap, exBind_ok] at h
  cases hr : pyDictGet e (PyVal.str "repository") idv with
  | error u => rw [hr, exBind_error] at h; exact Except.noConfusion h
  | ok rv =>
  simp only [hr, exBind_ok, exPure_eq] at h
  cases h
  exact Or.inr ⟨idv, RawAddon.mk idv uv bv av apv rv, rfl⟩

theorem loadEntry_shape (pn : String) (s : RawStore) (e : PyVal) (s2 : RawStore)
    (h : loadEntry pn s e = Except.ok s2) :
    s2 = s ∨ ∃ k r, s2 = storeSet s k r := by
  unfold loadEntry at h
  cases h1 : pyGetItem e (PyVal.str "id") with
  | error u => rw [h1, exBind_error] at h; exact Except.noConfusion h
  | ok idv =>
  simp only [h1, exBind_ok] at h
  cases h2 : pyDictGet e (PyVal.str "platforms") PyVal.none with
  | error u => rw [h2, exBind_error] at h; exact Except.noConfusion h
  | ok pv =>
  simp only [h2, exBind_ok] at h
  cases ht : pyTruthy pv with
  | false =>
      simp only [ht, Bool.false_eq_true, if_false, exPure_eq, exBind_ok] at h
      exact loadTail_shape pn s e idv s2 h
  | true =>
      simp only [ht, if_true] at h
      cases hc : pyContains pv (PyVal.str pn) with
      | error u => rw [hc, exBind_error] at h; exact Except.noConfusion h
      | ok m =>
      simp only [hc, exBind_ok, exPure_eq] at h
      cases m with
      | true =>
          simp only [Bool.not_true, Bool.false_eq_true, if_false] at h
          exact loadTail_shape pn s e idv s2 h
      | false =>
          simp only [Bool.not_false, if_true, exPure_eq] at h
          cases h
          exact Or.inl rfl

theorem loadEntry_uniq (pn : String) (s : RawStore) (e : PyVal) (s2 : RawStore)
    (hu : UniqKeys s) (h : loadEntry pn s e = Except.ok s2) : UniqKeys s2 := by
  rcases loadEntry_shape pn s e s2 h with h2 | ⟨k, r, h2⟩
  · rw [h2]; exact hu
  · rw [h2]; exact storeSet_uniq s k r hu

theorem loadData_uniq (pn : String) : ∀ (data : List PyVal) (s : RawStore),
    UniqKeys s → UniqKeys (loadData pn s data).1
  | [], s, hu => hu
  | e :: rest, s, hu => by
      cases hle : loadEntry pn s e with
      | ok s1 =>
          simp only [loadData, hle]
          exact loadData_uniq pn rest s1 (loadEntry_uniq pn s e s1 hu hle)
      | error u =>
          simp only [loadData, hle]
          exact hu

/-- A raw entry that, when loaded on platform `pn`, writes exactly the record
`rec` under key `idv` into whatever store the load runs against. -/
def EntryYields (pn : String) (e : PyVal) (idv : PyVal) (rec : RawAddon) : Prop :=
  ∀ s : RawStore, loadEntry pn s e = Except.ok (storeSet s idv rec)

theorem entryYields_intro (pn : String) (e idv uv pv bv av apv rv : PyVal)
    (hid : pyGetItem e (PyVal.str "id") = Except.ok idv)
    (hpl : pyDictGet e (PyVal.str "platforms") PyVal.none = Except.ok pv)
    (hpv : pyTruthy pv = false)
    (hu : pyGetItem e (PyVal.str "username") = Except.ok uv)
    (hb : pyDictGet e (PyVal.str "branch") PyVal.none = Except.ok bv)
    (ha : pyDictGet e (PyVal.str "assets") (PyVal.dict []) = Except.ok av)
    (hap : pyDictGet e (PyVal.str "asset_prefix") (PyVal.str "") = Except.ok apv)
    (hr : pyDictGet e (PyVal.str "repository") idv = Except.ok rv) :
    EntryYields pn e idv (RawAddon.mk idv uv bv av apv rv) := by
  intro s
  unfold loadEntry
  simp only [hid, exBind_ok, hpl, hpv, Bool.false_eq_true, if_false, exPure_eq,
    hu, hb, ha, hap, hr]

theorem entryYields_intro_whitelist (pn : String) (e idv uv pv bv av apv rv : PyVal)
    (hid : pyGetItem e (PyVal.str "id") = Except.ok idv)
    (hpl : pyDictGet e (PyVal.str "platforms") PyVal.none = Except.ok pv)
    (hpv : pyTruthy pv = true)
    (hc : pyContains pv (PyVal.str pn) = Except.ok true)
    (hu : pyGetItem e (PyVal.str "username") = Except.ok uv)
    (hb : pyDictGet e (PyVal.str "branch") PyVal.none = Except.ok bv)
    (ha : pyDictGet e (PyVal.str "assets") (PyVal.dict []) = Except.ok av)
    (hap : pyDictGet e (PyVal.str "asset_prefix") (PyVal.str "") = Except.ok apv)
    (hr : pyDictGet e (PyVal.str "repository") idv = Except.ok rv) :
    EntryYields pn e idv (RawAddon.mk idv uv bv av apv rv) := by
  intro s
  unfold loadEntry
  simp only [hid, exBind_ok, hpl, hpv, if_true, hc, exPure_eq, Bool.not_true,
    Bool.false_eq_true, if_false, hu, hb, ha, hap, hr]

def xEntryC2 : PyVal := PyVal.dict [(PyVal.str "id", PyVal.str "a"),
  (PyVal.str "username", PyVal.str "u"), (PyVal.str "bogus", PyVal.int 1)]

def xRecC2 : RawAddon := RawAddon.mk (PyVal.str "a") (PyVal.str "u") PyVal.none
  (PyVal.dict []) (PyVal.str "") (PyVal.str "a")

/-- C2 counterexample: the entry `{id: "a", username: "u", bogus: 1}` is
rejected by `validate_entry_schema` (second conjunct), yet `_load_data`
accepts it into the store without error — no schema validation is applied
anywhere on the load path, refuting the claim that a malformed entry makes
the load fail with a SchemaError and leaves the store unchanged. -/
theorem c2_counterexample :
    loadData "linux" [] [xEntryC2] = ([(PyVal.str "a", xRecC2)], Option.none)
    ∧ (∃ msg, validate_entry_schema xEntryC2 = Except.error msg) :=
  ⟨rfl, ⟨"key is not valid", rfl⟩⟩

/-- C2 amended: the load path applies no schema validation — an entry is
accepted whenever subscripting its `id` and `username` keys succeeds and the
platform filter passes, however malformed it is otherwise — and a raised
KeyError part-way through a source leaves the entries loaded before it in
the store (first conjunct: a successful first entry stays accepted; second
conjunct: the failing second entry aborts the loop with the first entry
still in the store), so acceptance is not all-or-nothing per source. -/
theorem c2_no_validation (pn : String) (s s1 : RawStore) (e1 e2 : PyVal)
    (h1 : loadEntry pn s e1 = Except.ok s1)
    (h2 : loadEntry pn s1 e2 = Except.error ()) :
    loadData pn s [e1] = (s1, Option.none)
    ∧ loadData pn s [e1, e2] = (s1, Option.some ()) := by
  constructor
  · simp [loadData, h1]
  · simp [loadData, h1, h2]

/-- Witness for the amended C2: the malformed entry of the counterexample is
accepted, and the following entry lacking `id` raises KeyError, leaving the
malformed entry loaded. -/
theorem c2_no_validation_witness :
    loadData "linux" [] [xEntryC2, PyVal.dict []]
      = ([(PyVal.str "a", xRecC2)], Option.some ()) :=
  (c2_no_validation "linux" [] [(PyVal.str "a", xRecC2)] xEntryC2 (PyVal.dict [])
    rfl rfl).2

/-- C6: in a load pass, an entry whose non-empty platform whitelist does not
contain the current platform name is skipped and the store is untouched
(first conjunct); an entry whose platform whitelist is falsy â the key is
absent (the `.get` default None), the value is None, or the whitelist is
the empty list â is loaded on every platform `pn`, constructing or
overwriting the record for its id from its own fields, with `branch`,
`assets`, `asset_prefix` and `repository` read by `.get` with the defaults
None, the empty mapping, the empty string and the id (second conjunct); an
entry whose whitelist contains the platform is likewise loaded (third
conjunct); for an entry carrying none of the optional keys the constructed
record is exactly the defaulted one (fourth conjunct). -/
theorem c6_platform_filtering (pn : String) (e : PyVal) (idv : PyVal)
    (hid : pyGetItem e (PyVal.str "id") = Except.ok idv) :
    (∀ (s : RawStore) (ps : List PyVal),
        pyDictGet e (PyVal.str "platforms") PyVal.none = Except.ok (PyVal.list ps) →
        ps ≠ [] → ps.any (fun q => pyBeq q (PyVal.str pn)) = false →
        loadEntry pn s e = Except.ok s)
    ∧ (∀ (pv uv bv av apv rv : PyVal),
        pyDictGet e (PyVal.str "platforms") PyVal.none = Except.ok pv →
        pyTruthy pv = false →
        pyGetItem e (PyVal.str "username") = Except.ok uv →
        pyDictGet e (PyVal.str "branch") PyVal.none = Except.ok bv →
        pyDictGet e (PyVal.str "assets") (PyVal.dict []) = Except.ok av →
        pyDictGet e (PyVal.str "asset_prefix") (PyVal.str "") = Except.ok apv →
        pyDictGet e (PyVal.str "repository") idv = Except.ok rv →
        ∀ s : RawStore, loadEntry pn s e
          = Except.ok (storeSet s idv (RawAddon.mk idv uv bv av apv rv)))
    ∧ (∀ (ps : List PyVal) (uv bv av apv rv : PyVal),
        pyDictGet e (PyVal.str "platforms") PyVal.none = Except.ok (PyVal.list ps) →
        ps.any (fun q => pyBeq q (PyVal.str pn)) = true →
        pyGetItem e (PyVal.str "username") = Except.ok uv →
        pyDictGet e (PyVal.str "branch") PyVal.none = Except.ok bv →
        pyDictGet e (PyVal.str "assets") (PyVal.dict []) = Except.ok av →
        pyDictGet e (PyVal.str "asset_prefix") (PyVal.str "") = Except.ok apv →
        pyDictGet e (PyVal.str "repository") idv = Except.ok rv →
        ∀ s : RawStore, loadEntry pn s e
          = Except.ok (storeSet s idv (RawAddon.mk idv uv bv av apv rv)))
    ∧ (∀ (kvs : List (PyVal × PyVal)) (uv : PyVal), e = PyVal.dict kvs →
        pyGetItem e (PyVal.str "username") = Except.ok uv →
        hasKey kvs "platforms" = false → hasKey kvs "branch" = false →
        hasKey kvs "assets" = false → hasKey kvs "asset_prefix" = false →
        hasKey kvs "repository" = false →
        ∀ s : RawStore, loadEntry pn s e
          = Except.ok (storeSet s idv
              (RawAddon.mk idv uv PyVal.none (PyVal.dict []) (PyVal.str "") idv))) := by
  refine ⟨?_, ?_, ?_, ?_⟩
  · intro s ps hpl hne hnotin
    have ht : pyTruthy (PyVal.list ps) = true := by
      cases ps with
      | nil => exact absurd rfl hne
      | cons a l => rfl
    have hc : pyContains (PyVal.list ps) (PyVal.str pn)
        = Except.ok (ps.any (fun q => pyBeq q (PyVal.str pn))) := rfl
    unfold loadEntry
    simp only [hid, exBind_ok, hpl, ht, if_true, hc, hnotin, exPure_eq,
      exBind_ok, Bool.not_false]
  · intro pv uv bv av apv rv hpl hpv hu hb ha hap hr
    exact entryYields_intro pn e idv uv pv bv av apv rv hid hpl hpv hu hb ha hap hr
  · intro ps uv bv av apv rv hpl hin hu hb ha hap hr
    have ht : pyTruthy (PyVal.list ps) = true := by
      cases ps with
      | nil => simp at hin
      | cons a l => rfl
    have hc : pyContains (PyVal.list ps) (PyVal.str pn) = Except.ok true := by
      rw [show pyContains (PyVal.list ps) (PyVal.str pn)
        = Except.ok (ps.any (fun q => pyBeq q (PyVal.str pn))) from rfl, hin]
    exact entryYields_intro_whitelist pn e idv uv (PyVal.list ps) bv av apv rv
      hid hpl ht hc hu hb ha hap hr
  · intro kvs uv he hu h1 h2 h3 h4 h5
    subst he
    exact entryYields_intro pn (PyVal.dict kvs) idv uv PyVal.none PyVal.none
      (PyVal.dict []) (PyVal.str "") idv hid
      (pyDictGet_not_found kvs "platforms" PyVal.none h1) rfl hu
      (pyDictGet_not_found kvs "branch" PyVal.none h2)
      (pyDictGet_not_found kvs "assets" (PyVal.dict []) h3)
      (pyDictGet_not_found kvs "asset_prefix" (PyVal.str "") h4)
      (pyDictGet_not_found kvs "repository" idv h5)

def wEntryC6skip : PyVal := PyVal.dict [(PyVal.str "id", PyVal.str "a"),
  (PyVal.str "username", PyVal.str "u"),
  (PyVal.str "platforms", PyVal.list [PyVal.str "windows"])]

def wEntryC6def : PyVal := PyVal.dict [(PyVal.str "id", PyVal.str "b"),
  (PyVal.str "username", PyVal.str "u2")]

def wRecC6def : RawAddon := RawAddon.mk (PyVal.str "b") (PyVal.str "u2")
  PyVal.none (PyVal.dict []) (PyVal.str "") (PyVal.str "b")

def wEntryC6wl : PyVal := PyVal.dict [(PyVal.str "id", PyVal.str "c"),
  (PyVal.str "username", PyVal.str "u3"),
  (PyVal.str "platforms", PyVal.list [PyVal.str "linux"])]

def wRecC6wl : RawAddon := RawAddon.mk (PyVal.str "c") (PyVal.str "u3")
  PyVal.none (PyVal.dict []) (PyVal.str "") (PyVal.str "c")

def wEntryC6ord : PyVal := PyVal.dict [(PyVal.str "id", PyVal.str "d"),
  (PyVal.str "username", PyVal.str "u4"), (PyVal.str "branch", PyVal.str "dev")]

def wRecC6ord : RawAddon := RawAddon.mk (PyVal.str "d") (PyVal.str "u4")
  (PyVal.str "dev") (PyVal.dict []) (PyVal.str "") (PyVal.str "d")

def wEntryC6empty : PyVal := PyVal.dict [(PyVal.str "id", PyVal.str "e"),
  (PyVal.str "username", PyVal.str "u5"), (PyVal.str "platforms", PyVal.list [])]

def wRecC6empty : RawAddon := RawAddon.mk (PyVal.str "e") (PyVal.str "u5")
  PyVal.none (PyVal.dict []) (PyVal.str "") (PyVal.str "e")

/-- Witness for C6 at concrete inputs on platform `"linux"`: an entry
whitelisting only `"windows"` is skipped; an ordinary entry without a
whitelist but carrying an optional `branch` field is loaded with that field;
an entry declaring an empty whitelist is loaded; an entry whitelisting
`"linux"` is loaded; an entry with no optional keys at all gets exactly the
defaulted record. -/
theorem c6_platform_filtering_witness :
    loadEntry "linux" [] wEntryC6skip = Except.ok []
    ∧ loadEntry "linux" [] wEntryC6ord = Except.ok [(PyVal.str "d", wRecC6ord)]
    ∧ loadEntry "linux" [] wEntryC6empty = Except.ok [(PyVal.str "e", wRecC6empty)]
    ∧ loadEntry "linux" [] wEntryC6wl = Except.ok [(PyVal.str "c", wRecC6wl)]
    ∧ loadEntry "linux" [] wEntryC6def = Except.ok [(PyVal.str "b", wRecC6def)] := by
  refine ⟨?_, ?_, ?_, ?_, ?_⟩
  · exact (c6_platform_filtering "linux" wEntryC6skip (PyVal.str "a") rfl).1 []
      [PyVal.str "windows"] rfl (by decide) (by decide)
  · exact ((c6_platform_filtering "linux" wEntryC6ord (PyVal.str "d") rfl).2.1
      PyVal.none (PyVal.str "u4") (PyVal.str "dev") (PyVal.dict [])
      (PyVal.str "") (PyVal.str "d") rfl rfl rfl rfl rfl rfl rfl) []
  · exact ((c6_platform_filtering "linux" wEntryC6empty (PyVal.str "e") rfl).2.1
      (PyVal.list []) (PyVal.str "u5") PyVal.none (PyVal.dict [])
      (PyVal.str "") (PyVal.str "e") rfl rfl rfl rfl rfl rfl rfl) []
  · exact ((c6_platform_filtering "linux" wEntryC6wl (PyVal.str "c") rfl).2.2.1
      [PyVal.str "linux"] (PyVal.str "u3") PyVal.none (PyVal.dict [])
      (PyVal.str "") (PyVal.str "c") rfl (by decide) rfl rfl rfl rfl rfl) []
  · exact ((c6_platform_filtering "linux" wEntryC6def (PyVal.str "b") rfl).2.2.2
      [(PyVal.str "id", PyVal.str "b"), (PyVal.str "username", PyVal.str "u2")]
      (PyVal.str "u2") rfl rfl rfl rfl rfl rfl rfl) []

/-- C7: the Entry Store keeps at most one record per id — key uniqueness is
an invariant of every load pass (first conjunct) — and two successive loads
of entries sharing an id leave exactly one record for that id, carrying the
fields of the second entry: the store is the double overwrite, the lookup yields
the second record, and the key occurs exactly once (second conjunct). -/
theorem c7_store_unique_overwrite (pn : String) :
    (∀ (data : List PyVal) (s : RawStore), UniqKeys s → UniqKeys (loadData pn s data).1)
    ∧ (∀ (s : RawStore) (e1 e2 : PyVal) (idv : PyVal) (r1 r2 : RawAddon),
        EntryYields pn e1 idv r1 → EntryYields pn e2 idv r2 →
        loadData pn s [e1, e2] = (storeSet (storeSet s idv r1) idv r2, Option.none)
        ∧ storeLookup (storeSet (storeSet s idv r1) idv r2) idv = Option.some r2
        ∧ (UniqKeys s → countKey (storeSet (storeSet s idv r1) idv r2) idv = 1)) := by
  constructor
  · exact fun data s hu => loadData_uniq pn data s hu
  · intro s e1 e2 idv r1 r2 hy1 hy2
    refine ⟨?_, storeLookup_storeSet _ idv r2,
      fun hu => countKey_storeSet _ idv r2 (storeSet_uniq s idv r1 hu)⟩
    simp [loadData, hy1 s, hy2 (storeSet s idv r1)]

def wEntryC7a : PyVal := PyVal.dict [(PyVal.str "id", PyVal.str "x"),
  (PyVal.str "username", PyVal.str "u1")]

def wEntryC7b : PyVal := PyVal.dict [(PyVal.str "id", PyVal.str "x"),
  (PyVal.str "username", PyVal.str "u2"), (PyVal.str "branch", PyVal.str "dev")]

def wRecC7a : RawAddon := RawAddon.mk (PyVal.str "x") (PyVal.str "u1")
  PyVal.none (PyVal.dict []) (PyVal.str "") (PyVal.str "x")

def wRecC7b : RawAddon := RawAddon.mk (PyVal.str "x") (PyVal.str "u2")
  (PyVal.str "dev") (PyVal.dict []) (PyVal.str "") (PyVal.str "x")

/-- Witness for C7 at concrete inputs: two entries sharing id `"x"` loaded in
sequence leave exactly one record, carrying the fields of the second entry. -/
theorem c7_store_unique_overwrite_witness :
    loadData "linux" [] [wEntryC7a, wEntryC7b]
      = ([(PyVal.str "x", wRecC7b)], Option.none)
    ∧ storeLookup [(PyVal.str "x", wRecC7b)] (PyVal.str "x") = Option.some wRecC7b
    ∧ countKey [(PyVal.str "x", wRecC7b)] (PyVal.str "x") = 1 := by
  have h := (c7_store_unique_overwrite "linux").2 [] wEntryC7a wEntryC7b
    (PyVal.str "x") wRecC7a wRecC7b (fun s => rfl) (fun s => rfl)
  exact ⟨h.1, h.2.1, h.2.2 List.nodup_nil⟩

/-- C9: loading an entry whose id is already present replaces the record in
place: the sequence of store keys — hence the iteration order the manifest
follows — is unchanged (the id keeps its original position rather than
moving to the end), while the lookup now yields the new record. -/
theorem c9_overwrite_keeps_order (pn : String) (s : RawStore) (e : PyVal)
    (idv : PyVal) (rec : RawAddon)
    (hy : EntryYields pn e idv rec)
    (hmem : s.any (fun p => pyBeq p.1 idv) = true) :
    loadData pn s [e] = (storeSet s idv rec, Option.none)
    ∧ (storeSet s idv rec).map (fun p => p.1) = s.map (fun p => p.1)
    ∧ storeLookup (storeSet s idv rec) idv = Option.some rec := by
  refine ⟨?_, storeSet_keys_of_mem s idv rec hmem, storeLookup_storeSet s idv rec⟩
  simp [loadData, hy s]

def wRecC9x0 : RawAddon := RawAddon.mk (PyVal.str "x") (PyVal.str "u0")
  PyVal.none (PyVal.dict []) (PyVal.str "") (PyVal.str "x")

def wRecC9y : RawAddon := RawAddon.mk (PyVal.str "y") (PyVal.str "uy")
  PyVal.none (PyVal.dict []) (PyVal.str "") (PyVal.str "y")

def wStoreC9 : RawStore := [(PyVal.str "x", wRecC9x0), (PyVal.str "y", wRecC9y)]

def wEntryC9 : PyVal := PyVal.dict [(PyVal.str "id", PyVal.str "x"),
  (PyVal.str "username", PyVal.str "u9")]

def wRecC9x1 : RawAddon := RawAddon.mk (PyVal.str "x") (PyVal.str "u9")
  PyVal.none (PyVal.dict []) (PyVal.str "") (PyVal.str "x")

/-- Witness for C9 at concrete inputs: re-loading id `"x"`, stored before
`"y"`, keeps `"x"` in first position with the new record. -/
theorem c9_overwrite_keeps_order_witness :
    loadData "linux" wStoreC9 [wEntryC9]
      = ([(PyVal.str "x", wRecC9x1), (PyVal.str "y", wRecC9y)], Option.none)
    ∧ ([(PyVal.str "x", wRecC9x1), (PyVal.str "y", wRecC9y)] : RawStore).map
        (fun p => p.1) = wStoreC9.map (fun p => p.1)
    ∧ storeLookup [(PyVal.str "x", wRecC9x1), (PyVal.str "y", wRecC9y)]
        (PyVal.str "x") = Option.some wRecC9x1 := by
  have h := c9_overwrite_keeps_order "linux" wStoreC9 wEntryC9 (PyVal.str "x")
    wRecC9x1 (fun s => rfl) rfl
  exact ⟨h.1, h.2.1, h.2.2⟩
